import Mathlib

/-!
Verification of the Magicstomp SysEx protocol core
(`src/magicstompfrenzy_reference/mainwindow.cpp`, `magicstomp.h`).

Bytes are modelled as natural numbers below 256; byte arrays as `List Nat`.
Signed 8-bit arithmetic in the C++ source is reproduced with explicit
`% 256` / `% 128` reductions.
-/

namespace Magicstomp

set_option maxRecDepth 8000

/-- `sysExBulkHeader` from mainwindow.cpp line 15: F0 43 7D 30 55 42 39 39. -/
def sysExBulkHeader : List Nat := [0xF0, 0x43, 0x7D, 0x30, 0x55, 0x42, 0x39, 0x39]

/-- `sysExBulkHeaderLength` from mainwindow.cpp line 14. -/
def sysExBulkHeaderLength : Nat := 8

/-- `sysExParameterSendHeader` from mainwindow.cpp line 19: F0 43 7D 40 55 42. -/
def sysExParameterSendHeader : List Nat := [0xF0, 0x43, 0x7D, 0x40, 0x55, 0x42]

/-- `parameterSendHeaderLength` from mainwindow.cpp line 18. -/
def parameterSendHeaderLength : Nat := 6

/-- `PatchName` offset from magicstomp.h. -/
def PatchName : Nat := 16

/-- `PatchNameLength` from magicstomp.h. -/
def PatchNameLength : Nat := 12

/-- `PatchNameLast = PatchName + PatchNameLength` from magicstomp.h. -/
def PatchNameLast : Nat := PatchName + PatchNameLength

/-- `PatchCommonLength = 0x20` from magicstomp.h. -/
def PatchCommonLength : Nat := 0x20

/-- `PatchEffectLength = 0x7F` from magicstomp.h. -/
def PatchEffectLength : Nat := 0x7F

/-- `PatchTotalLength = PatchCommonLength + PatchEffectLength = 159` from magicstomp.h. -/
def PatchTotalLength : Nat := PatchCommonLength + PatchEffectLength

/-- `MainWindow::calcChecksum` (mainwindow.cpp lines 122-130): sum the bytes
into a `char` (signed 8-bit accumulator, i.e. modulo 256 on the byte level),
negate and mask with 0x7F.  For a residue `s` in `[0, 256)`, the C++ value
`(-s) & 0x7f` equals `(256 - s) % 256 % 128`. -/
def calcChecksum (data : List Nat) : Nat :=
  (256 - data.foldl (fun acc b => (acc + b) % 256) 0) % 256 % 128

/-- A bulk-dump frame as described by the wire format: 8-byte bulk header,
payload, checksum byte, 0xF7 terminator. -/
def mkBulkFrame (payload : List Nat) : List Nat :=
  sysExBulkHeader ++ payload ++ [calcChecksum payload, 0xF7]

/-- The structural and checksum validation performed on an inbound SysEx
frame by `MainWindow::midiEvent` (mainwindow.cpp lines 138-154):
length at least 13, first 8 bytes are the bulk header, last byte is 0xF7,
and the second-to-last byte equals the checksum of the bytes strictly
between the header and the checksum byte. -/
def frameValid (f : List Nat) : Bool :=
  decide (13 ≤ f.length) &&
  (f.take sysExBulkHeaderLength == sysExBulkHeader) &&
  (f.getD (f.length - 1) 0 == 0xF7) &&
  (calcChecksum ((f.drop sysExBulkHeaderLength).take (f.length - sysExBulkHeaderLength - 2))
     == f.getD (f.length - 2) 0)

/-- The state of `MainWindow` that `midiEvent` can read or mutate:
the two transfer-state flags and the patch store. -/
structure MainState where
  isInTransmissionState : Bool
  isInImportState : Bool
  patchStore : List (List Nat)
  deriving DecidableEq, Repr

/-- Which path of `midiEvent` handled an inbound frame: `rejected` for the
early returns of the structural/checksum checks (lines 139, 142, 147, 153),
`unexpected` for the "incoming unexpected data" drop (line 159), `processed`
when the frame reaches the processing code (line 162). -/
inductive SysExOutcome
  | rejected
  | unexpected
  | processed
  deriving DecidableEq, Repr

/-- `MainWindow::midiEvent` (mainwindow.cpp lines 133-164), with the elided
"Process incoming SysEx data" body abstracted as a `process` argument.
Each early `return` of the source maps to returning the unchanged state. -/
def midiEvent (process : MainState → List Nat → MainState)
    (st : MainState) (f : List Nat) : MainState × SysExOutcome :=
  if f.length < 13 then (st, .rejected)
  else if f.take sysExBulkHeaderLength ≠ sysExBulkHeader then (st, .rejected)
  else if f.getD (f.length - 1) 0 ≠ 0xF7 then (st, .rejected)
  else if calcChecksum ((f.drop sysExBulkHeaderLength).take
            (f.length - sysExBulkHeaderLength - 2)) ≠ f.getD (f.length - 2) 0 then
    (st, .rejected)
  else if !st.isInTransmissionState && !st.isInImportState then (st, .unexpected)
  else (process st f, .processed)

/-- The section/address bytes appended by `parameterChanged`
(mainwindow.cpp lines 46-55): section 0x00 with the raw offset for the
common section, section 0x01 with `offset - PatchCommonLength` otherwise. -/
def sectionBytes (offset : Nat) : List Nat :=
  if offset < PatchCommonLength then [0x00, offset] else [0x01, offset - PatchCommonLength]

/-- The parameter-send frame built by `parameterChanged`
(mainwindow.cpp lines 38-64): 6-byte parameter-send header, 0x20, section
byte, address byte, `length` value bytes read from the edit widget's data
array starting at `offset`, and the 0xF7 terminator. -/
def buildFrame (data : List Nat) (offset length : Nat) : List Nat :=
  sysExParameterSendHeader ++ [0x20] ++ sectionBytes offset ++
    (List.range length).map (fun i => data.getD (offset + i) 0) ++ [0xF7]

/-- The mutable state touched by `parameterChanged`: the outbound MIDI
queue (`midiOutQueue`, head = front), the authoritative patch buffer of the
currently edited patch (`newPatchDataList[currentPatchEdited...]`), the
pending-value buffer `tmpArray`, the edit widget's focus flag
(`paramEditWidget->hasFocus()`, never written by `parameterChanged`), and
the edit widget's data array (`editWidget->DataArray()`, read for the value
bytes). -/
structure EditState where
  queue : List (List Nat)
  patchData : List Nat
  tmpArray : List Nat
  hasFocus : Bool
  editData : List Nat
  deriving DecidableEq, Repr

/-- The queue manipulation of `parameterChanged` (mainwindow.cpp lines
66-88): remove every queued frame starting with the new frame's first
`parameterSendHeaderLength + 3 = 9` bytes, then enqueue the new frame at
the tail. -/
def enqueueDedup (frame : List Nat) (q : List (List Nat)) : List (List Nat) :=
  q.filter (fun e => !((frame.take (parameterSendHeaderLength + 3)).isPrefixOf e)) ++ [frame]

/-- The `tmpArray` application at the end of `MainWindow::parameterChanged`
(mainwindow.cpp lines 103-107): when the edit widget has no focus and
`tmpArray` is non-empty, write `tmpArray` into the authoritative patch
buffer (`QByteArray::replace(offset, length, tmpArray)`) and clear it;
otherwise leave the state untouched. -/
def applyTmp (offset len : Nat) (st : EditState) : EditState :=
  if !st.hasFocus && !st.tmpArray.isEmpty then
    { st with
        patchData := st.patchData.take offset ++ st.tmpArray ++
          st.patchData.drop (offset + len),
        tmpArray := [] }
  else st

/-- The body of `MainWindow::parameterChanged` (mainwindow.cpp lines
22-119) as one step, with the recursive call (lines 95-101) abstracted as
`rec`.  In order: force `length` to 1 when `offset == PatchName` (line 32),
build the frame (lines 38-64), dedup-and-enqueue (lines 66-88), recurse for
the remaining name bytes (lines 95-101), then run the `tmpArray`
application (lines 103-107).  The purely-GUI steps (label update, timer
start, CC-map rebuild) have no protocol state. -/
def pcStep (rec : EditState → Nat → Nat → EditState)
    (st : EditState) (offset length : Nat) : EditState :=
  let len := if offset = PatchName then 1 else length
  let frame := buildFrame st.editData offset len
  let st1 : EditState := { st with queue := enqueueDedup frame st.queue }
  let st2 : EditState :=
    if offset = PatchName then
      (List.range' (PatchName + 1) (PatchNameLength - 1)).foldl
        (fun s i => rec s i 1) st1
    else st1
  applyTmp offset len st2

/-- `MainWindow::parameterChanged` with a fuel argument standing for the
recursion depth (the source recurses only in the `offset == PatchName`
branch). -/
def parameterChangedFuel : Nat → EditState → Nat → Nat → EditState
  | 0, st, _, _ => st
  | fuel + 1, st, offset, length => pcStep (parameterChangedFuel fuel) st offset length

/-- `parameterChanged` at its actual recursion depth: the recursion is
entered only for `offset = PatchName` and the recursive calls use offsets
17..27, none of which is `PatchName`, so fuel 2 realises every call. -/
def parameterChanged (st : EditState) (offset length : Nat) : EditState :=
  parameterChangedFuel 2 st offset length

/-- The 9-byte coalescing key of a parameter-send frame for a given
section byte and address byte: parameter-send header, 0x20, section,
address. -/
def psKey (sec addr : Nat) : List Nat :=
  sysExParameterSendHeader ++ [0x20, sec, addr]

/-- Number of queued frames whose first 9 bytes are `psKey sec addr`. -/
def countKey (sec addr : Nat) (q : List (List Nat)) : Nat :=
  (q.filter (fun e => (psKey sec addr).isPrefixOf e)).length

/-- The section byte `parameterChanged` sends for a patch offset. -/
def sectionOf (offset : Nat) : Nat :=
  if offset < PatchCommonLength then 0x00 else 0x01

/-- The address byte `parameterChanged` sends for a patch offset. -/
def addrOf (offset : Nat) : Nat :=
  if offset < PatchCommonLength then offset else offset - PatchCommonLength

/-! ### General lemmas about the embedded definitions -/

theorem calcChecksum_lt (p : List Nat) : calcChecksum p < 128 :=
  Nat.mod_lt _ (by norm_num)

theorem mkBulkFrame_length (p : List Nat) : (mkBulkFrame p).length = p.length + 10 := by
  simp [mkBulkFrame, sysExBulkHeader]

theorem mkBulkFrame_eq (p : List Nat) :
    mkBulkFrame p = (sysExBulkHeader ++ p) ++ [calcChecksum p, 0xF7] := by
  simp [mkBulkFrame]

theorem mkBulkFrame_take8 (p : List Nat) : (mkBulkFrame p).take 8 = sysExBulkHeader := by
  rw [mkBulkFrame_eq, List.append_assoc]
  have h : (8 : Nat) = sysExBulkHeader.length := by simp [sysExBulkHeader]
  rw [h, List.take_left]

theorem mkBulkFrame_getD_last (p : List Nat) :
    (mkBulkFrame p).getD (p.length + 9) 0 = 0xF7 := by
  rw [mkBulkFrame_eq, List.getD_append_right]
  · have h : p.length + 9 - (sysExBulkHeader ++ p).length = 1 := by
      simp [sysExBulkHeader]
    rw [h]; rfl
  · simp [sysExBulkHeader]

theorem mkBulkFrame_getD_checksum (p : List Nat) :
    (mkBulkFrame p).getD (p.length + 8) 0 = calcChecksum p := by
  rw [mkBulkFrame_eq, List.getD_append_right]
  · have h : p.length + 8 - (sysExBulkHeader ++ p).length = 0 := by
      simp [sysExBulkHeader]
    rw [h]; rfl
  · simp [sysExBulkHeader]

theorem mkBulkFrame_payload (p : List Nat) :
    ((mkBulkFrame p).drop 8).take p.length = p := by
  rw [mkBulkFrame_eq, List.append_assoc, List.drop_left' (by simp [sysExBulkHeader])]
  rw [List.take_append_of_le_length (by simp), List.take_length]

theorem frameValid_mkBulkFrame (p : List Nat) (h : 3 ≤ p.length) :
    frameValid (mkBulkFrame p) = true := by
  have hlen := mkBulkFrame_length p
  unfold frameValid sysExBulkHeaderLength
  rw [hlen]
  have h1 : p.length + 10 - 1 = p.length + 9 := by omega
  have h3 : p.length + 10 - 8 - 2 = p.length := by omega
  rw [h1, h3, mkBulkFrame_take8, mkBulkFrame_getD_last, mkBulkFrame_payload]
  have h4 : p.length + 10 - 2 = p.length + 8 := by omega
  rw [h4, mkBulkFrame_getD_checksum]
  simp
  omega

theorem pcFuel_succ (fuel : Nat) (st : EditState) (offset length : Nat) :
    parameterChangedFuel (fuel + 1) st offset length
      = pcStep (parameterChangedFuel fuel) st offset length := rfl

theorem pcStep_of_ne (rec rec' : EditState → Nat → Nat → EditState)
    (st : EditState) (offset length : Nat) (h : offset ≠ PatchName) :
    pcStep rec st offset length = pcStep rec' st offset length := by
  simp [pcStep, h]

theorem foldl_congr_mem (f g : EditState → Nat → EditState) (l : List Nat)
    (h : ∀ s i, i ∈ l → f s i = g s i) :
    ∀ st : EditState, l.foldl f st = l.foldl g st := by
  induction l with
  | nil => intro st; rfl
  | cons a t ih =>
    intro st
    simp only [List.foldl_cons]
    rw [h st a (List.mem_cons_self a t)]
    exact ih (fun s i hi => h s i (List.mem_cons_of_mem a hi)) _

theorem mem_name_tail_ne (i : Nat)
    (hi : i ∈ List.range' (PatchName + 1) (PatchNameLength - 1)) : i ≠ PatchName := by
  rw [List.mem_range'] at hi
  obtain ⟨j, hj, rfl⟩ := hi
  simp only [PatchName, PatchNameLength] at *
  omega

theorem pcStep_congr (rec rec' : EditState → Nat → Nat → EditState)
    (st : EditState) (offset length : Nat)
    (h : ∀ s i, i ≠ PatchName → rec s i 1 = rec' s i 1) :
    pcStep rec st offset length = pcStep rec' st offset length := by
  unfold pcStep
  by_cases hoff : offset = PatchName
  · simp only [hoff, if_pos]
    rw [foldl_congr_mem (fun s i => rec s i 1) (fun s i => rec' s i 1) _
      (fun s i hi => h s i (mem_name_tail_ne i hi))]
  · simp [hoff]

theorem pcFuel_one_of_ne (fuel : Nat) (st : EditState) (offset length : Nat)
    (h : offset ≠ PatchName) :
    parameterChangedFuel (fuel + 1) st offset length
      = parameterChangedFuel 1 st offset length := by
  rw [pcFuel_succ, pcFuel_succ]
  exact pcStep_of_ne _ _ _ _ _ h

theorem sectionBytes_eq (offset : Nat) :
    sectionBytes offset = [sectionOf offset, addrOf offset] := by
  unfold sectionBytes sectionOf addrOf
  split <;> rfl

theorem psKey_length (s a : Nat) : (psKey s a).length = 9 := by
  simp [psKey, sysExParameterSendHeader]

theorem buildFrame_eq_key (d : List Nat) (offset length : Nat) :
    buildFrame d offset length
      = psKey (sectionOf offset) (addrOf offset)
          ++ ((List.range length).map (fun i => d.getD (offset + i) 0) ++ [0xF7]) := by
  rw [buildFrame, sectionBytes_eq]
  simp [psKey, sysExParameterSendHeader]

theorem buildFrame_take_key (d : List Nat) (offset length : Nat) :
    (buildFrame d offset length).take (parameterSendHeaderLength + 3)
      = psKey (sectionOf offset) (addrOf offset) := by
  rw [buildFrame_eq_key]
  exact List.take_left' (psKey_length _ _)

theorem psKey_inj (s a s' a' : Nat) : psKey s a = psKey s' a' ↔ (s = s' ∧ a = a') := by
  simp [psKey]

theorem psKey_isPrefixOf_buildFrame (s a : Nat) (d : List Nat) (offset length : Nat) :
    (psKey s a).isPrefixOf (buildFrame d offset length)
      = (decide (s = sectionOf offset) && decide (a = addrOf offset)) := by
  by_cases hc : s = sectionOf offset ∧ a = addrOf offset
  · obtain ⟨rfl, rfl⟩ := hc
    have hp : psKey (sectionOf offset) (addrOf offset) <+: buildFrame d offset length := by
      rw [buildFrame_eq_key]
      exact List.prefix_append _ _
    simp [hp]
  · have hrhs : (decide (s = sectionOf offset) && decide (a = addrOf offset)) = false := by
      rcases Decidable.not_and_iff_or_not.mp hc with h1 | h1 <;> simp [h1]
    rw [hrhs, Bool.eq_false_iff]
    intro hp
    rw [List.isPrefixOf_iff_prefix, List.prefix_iff_eq_take, psKey_length] at hp
    have h9 : (9 : Nat) = parameterSendHeaderLength + 3 := by
      simp [parameterSendHeaderLength]
    rw [h9, buildFrame_take_key, psKey_inj] at hp
    exact hc hp

theorem countKey_append (s a : Nat) (q q' : List (List Nat)) :
    countKey s a (q ++ q') = countKey s a q + countKey s a q' := by
  simp [countKey]

theorem countKey_filter_le (s a : Nat) (p : List Nat → Bool) (q : List (List Nat)) :
    countKey s a (q.filter p) ≤ countKey s a q := by
  unfold countKey
  exact List.Sublist.length_le (List.Sublist.filter _ (List.filter_sublist q))

theorem countKey_singleton_of_key (s a : Nat) (frame : List Nat)
    (h : (psKey s a).isPrefixOf frame = true) :
    countKey s a [frame] = 1 := by
  simp [countKey, h]

theorem countKey_singleton_of_not (s a : Nat) (frame : List Nat)
    (h : (psKey s a).isPrefixOf frame = false) :
    countKey s a [frame] = 0 := by
  simp [countKey, h]

theorem take_key_of_psKey (s a : Nat) (frame : List Nat)
    (h : (psKey s a).isPrefixOf frame = true) :
    frame.take (parameterSendHeaderLength + 3) = psKey s a := by
  rw [List.isPrefixOf_iff_prefix, List.prefix_iff_eq_take, psKey_length] at h
  have h9 : (9 : Nat) = parameterSendHeaderLength + 3 := by
    simp [parameterSendHeaderLength]
  rw [h9] at h
  exact h.symm

theorem countKey_enqueueDedup_self (s a : Nat) (frame : List Nat)
    (q : List (List Nat)) (h : (psKey s a).isPrefixOf frame = true) :
    countKey s a (enqueueDedup frame q) = 1 := by
  unfold enqueueDedup
  rw [countKey_append, countKey_singleton_of_key s a frame h]
  rw [take_key_of_psKey s a frame h]
  unfold countKey
  rw [List.filter_filter]
  simp

theorem countKey_enqueueDedup_le (s a : Nat) (frame : List Nat)
    (q : List (List Nat)) (hq : countKey s a q ≤ 1) :
    countKey s a (enqueueDedup frame q) ≤ 1 := by
  by_cases h : (psKey s a).isPrefixOf frame = true
  · rw [countKey_enqueueDedup_self s a frame q h]
  · rw [Bool.not_eq_true] at h
    unfold enqueueDedup
    rw [countKey_append, countKey_singleton_of_not s a frame h]
    have := countKey_filter_le s a
      (fun e => !((frame.take (parameterSendHeaderLength + 3)).isPrefixOf e)) q
    omega

theorem applyTmp_queue (offset len : Nat) (st : EditState) :
    (applyTmp offset len st).queue = st.queue := by
  unfold applyTmp
  split <;> rfl

theorem applyTmp_editData (offset len : Nat) (st : EditState) :
    (applyTmp offset len st).editData = st.editData := by
  unfold applyTmp
  split <;> rfl

theorem applyTmp_hasFocus (offset len : Nat) (st : EditState) :
    (applyTmp offset len st).hasFocus = st.hasFocus := by
  unfold applyTmp
  split <;> rfl

theorem applyTmp_of_focus (offset len : Nat) (st : EditState)
    (h : st.hasFocus = true) : applyTmp offset len st = st := by
  simp [applyTmp, h]

theorem applyTmp_of_tmpEmpty (offset len : Nat) (st : EditState)
    (h : st.tmpArray = []) : applyTmp offset len st = st := by
  simp [applyTmp, h]

theorem applyTmp_of_apply (offset len : Nat) (st : EditState)
    (hf : st.hasFocus = false) (ht : st.tmpArray ≠ []) :
    applyTmp offset len st
      = { st with
            patchData := st.patchData.take offset ++ st.tmpArray ++
              st.patchData.drop (offset + len),
            tmpArray := [] } := by
  simp [applyTmp, hf, ht]

theorem foldl_id (l : List Nat) (st : EditState) :
    l.foldl (fun s _ => s) st = st := by
  induction l with
  | nil => rfl
  | cons a t ih => simp only [List.foldl_cons]; exact ih

theorem pcFuel_one_queue (st : EditState) (offset length : Nat) :
    (parameterChangedFuel 1 st offset length).queue
      = enqueueDedup
          (buildFrame st.editData offset (if offset = PatchName then 1 else length))
          st.queue := by
  rw [show (1 : Nat) = 0 + 1 from rfl, pcFuel_succ]
  unfold pcStep
  by_cases hoff : offset = PatchName <;>
    simp [hoff, parameterChangedFuel, foldl_id, applyTmp_queue]

theorem pcFuel_one_editData (st : EditState) (offset length : Nat) :
    (parameterChangedFuel 1 st offset length).editData = st.editData := by
  rw [show (1 : Nat) = 0 + 1 from rfl, pcFuel_succ]
  unfold pcStep
  by_cases hoff : offset = PatchName <;>
    simp [hoff, parameterChangedFuel, foldl_id, applyTmp_editData]

theorem foldl_pc_queue (l : List Nat) :
    ∀ st : EditState,
      ((l.foldl (fun s i => parameterChangedFuel 1 s i 1) st).queue
          = l.foldl (fun q i => enqueueDedup (buildFrame st.editData i 1) q) st.queue)
      ∧ (l.foldl (fun s i => parameterChangedFuel 1 s i 1) st).editData = st.editData := by
  induction l with
  | nil => intro st; exact ⟨rfl, rfl⟩
  | cons a t ih =>
    intro st
    simp only [List.foldl_cons]
    obtain ⟨ihq, ihd⟩ := ih (parameterChangedFuel 1 st a 1)
    rw [ihq, ihd, pcFuel_one_editData, pcFuel_one_queue]
    constructor
    · congr 1
      simp
    · rfl

theorem parameterChanged_queue (st : EditState) (offset length : Nat) :
    (parameterChanged st offset length).queue
      = if offset = PatchName then
          (List.range' (PatchName + 1) (PatchNameLength - 1)).foldl
            (fun q i => enqueueDedup (buildFrame st.editData i 1) q)
            (enqueueDedup (buildFrame st.editData PatchName 1) st.queue)
        else enqueueDedup (buildFrame st.editData offset length) st.queue := by
  unfold parameterChanged
  rw [show (2 : Nat) = 1 + 1 from rfl, pcFuel_succ]
  unfold pcStep
  by_cases hoff : offset = PatchName
  · simp only [hoff, ite_true, applyTmp_queue]
    rw [(foldl_pc_queue _ _).1]
  · simp only [hoff, ite_false, if_neg hoff, applyTmp_queue]

theorem countKey_foldl_enqueue (d : List Nat) (l : List Nat) :
    ∀ q : List (List Nat), (∀ s a, countKey s a q ≤ 1) →
      ∀ s a, countKey s a (l.foldl (fun q i => enqueueDedup (buildFrame d i 1) q) q) ≤ 1 := by
  induction l with
  | nil => intro q hq; exact hq
  | cons x t ih =>
    intro q hq
    simp only [List.foldl_cons]
    exact ih _ (fun s a => countKey_enqueueDedup_le s a _ q (hq s a))

theorem buildFrame_length (d : List Nat) (offset length : Nat) :
    (buildFrame d offset length).length = 10 + length := by
  rw [buildFrame_eq_key]
  simp [psKey, sysExParameterSendHeader]
  omega

theorem enqueueDedup_no_match (frame : List Nat) (q : List (List Nat))
    (h : ∀ e ∈ q, ((frame.take (parameterSendHeaderLength + 3)).isPrefixOf e) = false) :
    enqueueDedup frame q = q ++ [frame] := by
  unfold enqueueDedup
  congr 1
  rw [List.filter_eq_self]
  intro e he
  rw [h e he]
  rfl

theorem key_distinct_no_match (d d' : List Nat) (x j lx lj : Nat)
    (h : ¬(sectionOf x = sectionOf j ∧ addrOf x = addrOf j)) :
    (((buildFrame d x lx).take (parameterSendHeaderLength + 3)).isPrefixOf
      (buildFrame d' j lj)) = false := by
  rw [buildFrame_take_key, psKey_isPrefixOf_buildFrame]
  rcases Decidable.not_and_iff_or_not.mp h with h1 | h1 <;> simp [h1]

theorem foldl_enqueue_map (d : List Nat) :
    ∀ (l acc : List Nat),
      (∀ i ∈ l, ∀ j ∈ acc, ¬(sectionOf i = sectionOf j ∧ addrOf i = addrOf j)) →
      List.Pairwise (fun i j => ¬(sectionOf i = sectionOf j ∧ addrOf i = addrOf j)) l →
      l.foldl (fun q i => enqueueDedup (buildFrame d i 1) q)
          (acc.map (fun j => buildFrame d j 1))
        = (acc ++ l).map (fun j => buildFrame d j 1) := by
  intro l
  induction l with
  | nil => intro acc _ _; simp
  | cons x t ih =>
    intro acc hacc hpw
    simp only [List.foldl_cons]
    have hstep : enqueueDedup (buildFrame d x 1) (acc.map (fun j => buildFrame d j 1))
        = ((acc ++ [x]).map (fun j => buildFrame d j 1)) := by
      rw [enqueueDedup_no_match]
      · simp
      · intro e he
        rw [List.mem_map] at he
        obtain ⟨j, hj, rfl⟩ := he
        exact key_distinct_no_match d d x j 1 1
          (hacc x (List.mem_cons_self x t) j hj)
    rw [hstep, ih (acc ++ [x]) ?_ (List.Pairwise.of_cons hpw)]
    · simp
    · intro i hi j hj
      rw [List.mem_append] at hj
      rcases hj with hj | hj
      · exact hacc i (List.mem_cons_of_mem x hi) j hj
      · rw [List.mem_singleton] at hj
        subst hj
        rcases hpw with _ | ⟨hx, _⟩
        intro hc
        exact (hx i hi) ⟨hc.1.symm, hc.2.symm⟩

theorem name_expand_queue (pd tmp d : List Nat) (foc : Bool) (length : Nat) :
    (parameterChanged ⟨[], pd, tmp, foc, d⟩ PatchName length).queue
      = (List.range PatchNameLength).map (fun i => buildFrame d (PatchName + i) 1) := by
  rw [parameterChanged_queue, if_pos rfl]
  have h0 : enqueueDedup (buildFrame (EditState.mk [] pd tmp foc d).editData PatchName 1)
      (EditState.mk [] pd tmp foc d).queue
      = ([PatchName].map (fun j => buildFrame d j 1)) := by
    simp [enqueueDedup]
  rw [h0]
  rw [foldl_enqueue_map d _ [PatchName] (by decide) (by decide)]
  have h1 : [PatchName] ++ List.range' (PatchName + 1) (PatchNameLength - 1)
      = List.range' PatchName PatchNameLength := by decide
  rw [h1, List.range'_eq_map_range, List.map_map]
  rfl

theorem foldl_inv (P : EditState → Prop) (f : EditState → Nat → EditState)
    (hstep : ∀ s i, P s → P (f s i)) :
    ∀ (l : List Nat) (st : EditState), P st → P (l.foldl f st) := by
  intro l
  induction l with
  | nil => intro st h; exact h
  | cons a t ih =>
    intro st h
    simp only [List.foldl_cons]
    exact ih _ (hstep st a h)

theorem pcFuel_focus_inv (fuel : Nat) :
    ∀ (st : EditState) (offset length : Nat), st.hasFocus = true →
      (parameterChangedFuel fuel st offset length).patchData = st.patchData
      ∧ (parameterChangedFuel fuel st offset length).tmpArray = st.tmpArray
      ∧ (parameterChangedFuel fuel st offset length).hasFocus = true := by
  induction fuel with
  | zero => intro st o l h; exact ⟨rfl, rfl, h⟩
  | succ n ih =>
    intro st offset length h
    rw [pcFuel_succ]
    unfold pcStep
    by_cases hoff : offset = PatchName
    · simp only [hoff, ite_true]
      have h2 := foldl_inv
        (fun x => x.patchData = st.patchData ∧ x.tmpArray = st.tmpArray ∧ x.hasFocus = true)
        (fun s i => parameterChangedFuel n s i 1)
        (fun s i hs => by
          obtain ⟨p1, p2, p3⟩ := ih s i 1 hs.2.2
          exact ⟨p1.trans hs.1, p2.trans hs.2.1, p3⟩)
        (List.range' (PatchName + 1) (PatchNameLength - 1))
        { st with queue := enqueueDedup (buildFrame st.editData PatchName 1) st.queue }
        ⟨rfl, rfl, h⟩
      rw [applyTmp_of_focus _ _ _ h2.2.2]
      exact h2
    · simp only [hoff, ite_false]
      rw [applyTmp_of_focus offset length { st with queue := enqueueDedup (buildFrame st.editData offset length) st.queue } h]
      exact ⟨rfl, rfl, h⟩

theorem pcFuel_tmpEmpty_inv (fuel : Nat) :
    ∀ (st : EditState) (offset length : Nat), st.tmpArray = [] →
      (parameterChangedFuel fuel st offset length).patchData = st.patchData
      ∧ (parameterChangedFuel fuel st offset length).tmpArray = [] := by
  induction fuel with
  | zero => intro st o l h; exact ⟨rfl, h⟩
  | succ n ih =>
    intro st offset length h
    rw [pcFuel_succ]
    unfold pcStep
    by_cases hoff : offset = PatchName
    · simp only [hoff, ite_true]
      have h2 := foldl_inv
        (fun x => x.patchData = st.patchData ∧ x.tmpArray = [])
        (fun s i => parameterChangedFuel n s i 1)
        (fun s i hs => by
          obtain ⟨p1, p2⟩ := ih s i 1 hs.2
          exact ⟨p1.trans hs.1, p2⟩)
        (List.range' (PatchName + 1) (PatchNameLength - 1))
        { st with queue := enqueueDedup (buildFrame st.editData PatchName 1) st.queue }
        ⟨rfl, h⟩
      rw [applyTmp_of_tmpEmpty _ _ _ h2.2]
      exact h2
    · simp only [hoff, ite_false]
      rw [applyTmp_of_tmpEmpty offset length { st with queue := enqueueDedup (buildFrame st.editData offset length) st.queue } h]
      exact ⟨rfl, h⟩

theorem pc_apply_case (st : EditState) (offset length : Nat)
    (hoff : offset ≠ PatchName) (hf : st.hasFocus = false) (ht : st.tmpArray ≠ []) :
    (parameterChanged st offset length).patchData
        = st.patchData.take offset ++ st.tmpArray ++ st.patchData.drop (offset + length)
    ∧ (parameterChanged st offset length).tmpArray = [] := by
  unfold parameterChanged
  rw [pcFuel_one_of_ne 1 st offset length hoff]
  rw [show (1 : Nat) = 0 + 1 from rfl, pcFuel_succ]
  unfold pcStep
  simp only [hoff, ite_false]
  rw [applyTmp_of_apply offset length { st with queue := enqueueDedup (buildFrame st.editData offset length) st.queue } hf ht]
  exact ⟨rfl, rfl⟩


/-! ### The claims -/

/-- C1 (corrected), counterexample: the claim quantifies over every payload,
but the empty payload builds a 10-byte frame, which the length check
(`size < 13`) of inbound validation rejects.  The round-trip therefore fails
for payloads shorter than 3 bytes. -/
theorem C1_counterexample :
    frameValid (mkBulkFrame []) = false ∧ (mkBulkFrame []).length = 10 := by
  decide

/-- C1 (amended): for every payload P, `calcChecksum P` lies in [0,127]
(it is computed by summing the bytes as signed 8-bit values and taking
`(-sum) & 0x7F`, which `calcChecksum` embeds); and for every payload of
length at least 3 — in particular every payload of length 151 — the
round-trip holds: the bulk frame built as header ++ P ++ checksum ++ 0xF7
passes every check of inbound validation. -/
theorem C1_checksum_roundtrip (p : List Nat) :
    calcChecksum p < 128 ∧ (3 ≤ p.length → frameValid (mkBulkFrame p) = true) :=
  ⟨calcChecksum_lt p, frameValid_mkBulkFrame p⟩

/-- C1, witness at a payload of length 151. -/
theorem C1_witness :
    calcChecksum (List.replicate 151 0x42) < 128
    ∧ frameValid (mkBulkFrame (List.replicate 151 0x42)) = true :=
  ⟨(C1_checksum_roundtrip (List.replicate 151 0x42)).1,
   (C1_checksum_roundtrip (List.replicate 151 0x42)).2 (by decide)⟩

/-- C2 (confirmed): an inbound SysEx frame passes `midiEvent`'s validation
(is not rejected) iff its length is ≥ 13, its first 8 bytes are the bulk
header, its last byte is 0xF7 and its second-to-last byte is the checksum
of the bytes between header and checksum; a frame failing any check is
dropped with the whole state (transfer flags and patch store) unchanged. -/
theorem C2_validation (process : MainState → List Nat → MainState)
    (st : MainState) (f : List Nat) :
    ((midiEvent process st f).2 ≠ SysExOutcome.rejected ↔ frameValid f = true)
    ∧ (frameValid f = false → midiEvent process st f = (st, SysExOutcome.rejected)) := by
  unfold midiEvent frameValid
  split_ifs with h1 h2 h3 h4 h5 <;> simp_all <;> omega

/-- C2, witness: the empty frame (shorter than 13 bytes) is rejected with
the state unchanged. -/
theorem C2_witness :
    frameValid [] = false
    ∧ midiEvent (fun s _ => s) ⟨false, false, []⟩ []
        = (⟨false, false, []⟩, SysExOutcome.rejected) :=
  ⟨by decide, (C2_validation (fun s _ => s) ⟨false, false, []⟩ []).2 (by decide)⟩

/-- C3 (confirmed): if the outbound queue holds at most one frame per
9-byte (section, address) key, it still does after any `parameterChanged`
call; for a non-name offset the resulting queue is exactly the old queue
with every frame for the edited key removed and the new frame appended at
the tail (so the relative order of all other entries is unchanged), and the
edited key then has exactly one queued frame. -/
theorem C3_queue_dedup (st : EditState) (offset length : Nat)
    (hq : ∀ s a, countKey s a st.queue ≤ 1) :
    (∀ s a, countKey s a (parameterChanged st offset length).queue ≤ 1)
    ∧ (offset ≠ PatchName →
        (parameterChanged st offset length).queue
          = st.queue.filter (fun e =>
              !(((buildFrame st.editData offset length).take
                  (parameterSendHeaderLength + 3)).isPrefixOf e))
            ++ [buildFrame st.editData offset length])
    ∧ (offset ≠ PatchName →
        countKey (sectionOf offset) (addrOf offset)
          (parameterChanged st offset length).queue = 1) := by
  refine ⟨?_, ?_, ?_⟩
  · intro s a
    rw [parameterChanged_queue]
    by_cases hoff : offset = PatchName
    · rw [if_pos hoff]
      exact countKey_foldl_enqueue st.editData _ _
        (fun s a => countKey_enqueueDedup_le s a _ st.queue (hq s a)) s a
    · rw [if_neg hoff]
      exact countKey_enqueueDedup_le s a _ st.queue (hq s a)
  · intro hoff
    rw [parameterChanged_queue, if_neg hoff]
    rfl
  · intro hoff
    rw [parameterChanged_queue, if_neg hoff]
    apply countKey_enqueueDedup_self
    rw [psKey_isPrefixOf_buildFrame]
    simp

/-- C3, witness: editing offset 5 from an empty queue leaves exactly one
frame for key (section 0x00, address 5). -/
theorem C3_witness :
    countKey (sectionOf 5) (addrOf 5)
      (parameterChanged ⟨[], [], [], false, []⟩ 5 1).queue = 1 :=
  (C3_queue_dedup ⟨[], [], [], false, []⟩ 5 1
    (fun s a => by simp [countKey])).2.2 (by decide)

/-- C4 (confirmed): for every offset below `PatchTotalLength = 159`, the
parameter-send frame carries section byte 0x00 and address byte `offset`
when `offset < PatchCommonLength = 32`, and section byte 0x01 with address
byte `offset - 32` otherwise (byte 7 is the section, byte 8 the address). -/
theorem C4_section_mapping (d : List Nat) (len offset : Nat)
    (h : offset < PatchTotalLength) :
    (buildFrame d offset len).getD 7 0
        = (if offset < PatchCommonLength then 0x00 else 0x01)
    ∧ (buildFrame d offset len).getD 8 0
        = (if offset < PatchCommonLength then offset else offset - PatchCommonLength) := by
  unfold buildFrame sectionBytes sysExParameterSendHeader PatchCommonLength
  by_cases h32 : offset < 32 <;> simp [h32]

/-- C4, witness at offset 32 (first effect-section offset). -/
theorem C4_witness :
    (buildFrame [] 32 1).getD 7 0 = (if 32 < PatchCommonLength then 0x00 else 0x01)
    ∧ (buildFrame [] 32 1).getD 8 0
        = (if 32 < PatchCommonLength then 32 else 32 - PatchCommonLength) :=
  C4_section_mapping [] 1 32 (by decide)

/-- C5 (confirmed): a bulk-dump frame that passes validation but arrives
while neither `isInTransmissionState` nor `isInImportState` is set is
dropped as unexpected data: no state change, no processing. -/
theorem C5_unexpected_drop (process : MainState → List Nat → MainState)
    (st : MainState) (f : List Nat) (hv : frameValid f = true)
    (ht : st.isInTransmissionState = false) (hi : st.isInImportState = false) :
    midiEvent process st f = (st, SysExOutcome.unexpected) := by
  unfold frameValid at hv
  unfold midiEvent
  split_ifs with h1 h2 h3 h4 h5 <;> simp_all <;> omega

/-- C5, witness: a minimal valid frame received in the idle state. -/
theorem C5_witness :
    midiEvent (fun s _ => s) ⟨false, false, []⟩ (mkBulkFrame [0, 0, 0])
      = (⟨false, false, []⟩, SysExOutcome.unexpected) :=
  C5_unexpected_drop (fun s _ => s) ⟨false, false, []⟩ (mkBulkFrame [0, 0, 0])
    (by decide) rfl rfl

/-- C6 (confirmed): a `parameterChanged` call with offset `PatchName` and
length 12 starting from an empty queue enqueues exactly the 12 single-byte
name frames, the i-th carrying section 0x00, address `16 + i` and exactly
one value byte (total frame length 11). -/
theorem C6_name_expansion (pd tmp d : List Nat) (foc : Bool) :
    (parameterChanged ⟨[], pd, tmp, foc, d⟩ PatchName 12).queue
      = (List.range PatchNameLength).map (fun i => buildFrame d (PatchName + i) 1)
    ∧ (∀ i, i < 12 →
        (buildFrame d (PatchName + i) 1).take (parameterSendHeaderLength + 3)
            = psKey 0x00 (PatchName + i)
        ∧ (buildFrame d (PatchName + i) 1).length = 11) := by
  refine ⟨name_expand_queue pd tmp d foc 12, ?_⟩
  intro i hi
  constructor
  · rw [buildFrame_take_key]
    have hs : sectionOf (PatchName + i) = 0x00 := by
      unfold sectionOf PatchName PatchCommonLength at *
      rw [if_pos]
      omega
    have ha : addrOf (PatchName + i) = PatchName + i := by
      unfold addrOf PatchName PatchCommonLength at *
      rw [if_pos]
      omega
    rw [hs, ha]
  · rw [buildFrame_length]

/-- C6, witness at concrete state and the last name byte. -/
theorem C6_witness :
    (parameterChanged ⟨[], [], [], false, []⟩ PatchName 12).queue
        = (List.range PatchNameLength).map (fun i => buildFrame [] (PatchName + i) 1)
    ∧ ((buildFrame [] (PatchName + 11) 1).take (parameterSendHeaderLength + 3)
          = psKey 0x00 (PatchName + 11)
        ∧ (buildFrame [] (PatchName + 11) 1).length = 11) :=
  ⟨(C6_name_expansion [] [] [] false).1, (C6_name_expansion [] [] [] false).2 11 (by decide)⟩

/-- C7 (corrected), counterexample: inbound validation accepts this 13-byte
frame (8-byte header, 3 payload bytes, checksum, 0xF7), so acceptance does
not require a 169-byte total length. -/
theorem C7_counterexample :
    frameValid (mkBulkFrame [0, 0, 0]) = true ∧ (mkBulkFrame [0, 0, 0]).length = 13 := by
  decide

/-- C7 (amended): a bulk-dump frame built per the wire format with a
159-byte patch payload has total length 169 and passes inbound validation;
validation itself, however, only requires length ≥ 13 together with the
header, terminator and checksum checks, and does not enforce the 169-byte
total. -/
theorem C7_format_length (p : List Nat) (hp : p.length = PatchTotalLength) :
    (mkBulkFrame p).length = 169 ∧ frameValid (mkBulkFrame p) = true := by
  constructor
  · rw [mkBulkFrame_length, hp]
    decide
  · apply frameValid_mkBulkFrame
    rw [hp]
    decide

/-- C7, witness at a 159-byte payload. -/
theorem C7_witness :
    (mkBulkFrame (List.replicate 159 0)).length = 169
    ∧ frameValid (mkBulkFrame (List.replicate 159 0)) = true :=
  C7_format_length (List.replicate 159 0) (by decide)

/-- C8 (corrected), counterexample: a call with offset 17 (inside the name
region [16, 28)) and length 2 enqueues a frame with TWO value bytes
(the 12-byte frame below; a single-value-byte frame has 11 bytes), because
the source forces length to 1 only when offset equals `PatchName` = 16. -/
theorem C8_counterexample :
    (parameterChanged ⟨[], [], [], true, List.replicate 159 7⟩ 17 2).queue
      = [[0xF0, 0x43, 0x7D, 0x40, 0x55, 0x42, 0x20, 0x00, 17, 7, 7, 0xF7]] := by
  decide

/-- C8 (amended): only a call whose offset is exactly `PatchName` (16) is
forced to single-byte sends: every frame such a call enqueues carries
exactly one value byte (frame length 11) regardless of the requested
length; a call at offsets 17..27 uses the requested length unchanged. -/
theorem C8_name_single_byte (pd tmp d : List Nat) (foc : Bool) (length : Nat) :
    ∀ f ∈ (parameterChanged ⟨[], pd, tmp, foc, d⟩ PatchName length).queue,
      f.length = 11 := by
  rw [name_expand_queue]
  intro f hf
  rw [List.mem_map] at hf
  obtain ⟨i, _, rfl⟩ := hf
  rw [buildFrame_length]

/-- C8, witness: the first frame of a name write has a single value byte. -/
theorem C8_witness : (buildFrame [] (PatchName + 0) 1).length = 11 :=
  C8_name_single_byte [] [] [] false 12 (buildFrame [] (PatchName + 0) 1) (by decide)

/-- C9 (confirmed): `parameterChanged` builds and enqueues the outbound
frame unconditionally, but applies `tmpArray` to the authoritative patch
buffer only when the edit widget has no focus and `tmpArray` is non-empty:
with focus held, the patch buffer and `tmpArray` are untouched while the
frame is still enqueued; without focus and a pending value, the buffer
receives `replace(offset, length, tmpArray)` and `tmpArray` is cleared;
with no pending value the buffer is untouched. -/
theorem C9_focus_gating (st : EditState) (offset length : Nat) :
    (st.hasFocus = true →
        (parameterChanged st offset length).patchData = st.patchData
        ∧ (parameterChanged st offset length).tmpArray = st.tmpArray)
    ∧ (offset ≠ PatchName →
        (parameterChanged st offset length).queue
          = enqueueDedup (buildFrame st.editData offset length) st.queue)
    ∧ (offset ≠ PatchName → st.hasFocus = false → st.tmpArray ≠ [] →
        (parameterChanged st offset length).patchData
            = st.patchData.take offset ++ st.tmpArray
                ++ st.patchData.drop (offset + length)
          ∧ (parameterChanged st offset length).tmpArray = [])
    ∧ (st.tmpArray = [] →
        (parameterChanged st offset length).patchData = st.patchData) := by
  refine ⟨?_, ?_, ?_, ?_⟩
  · intro h
    have h2 := pcFuel_focus_inv 2 st offset length h
    exact ⟨h2.1, h2.2.1⟩
  · intro hoff
    rw [parameterChanged_queue, if_neg hoff]
  · intro hoff hf ht
    exact pc_apply_case st offset length hoff hf ht
  · intro h
    exact (pcFuel_tmpEmpty_inv 2 st offset length h).1

/-- C9, witness: without focus and with a pending byte, the patch buffer
receives the replacement and `tmpArray` is cleared. -/
theorem C9_witness :
    (parameterChanged ⟨[], [9, 9, 9, 9, 9, 9], [5], false, []⟩ 2 1).patchData
        = ([9, 9, 9, 9, 9, 9] : List Nat).take 2 ++ [5]
            ++ ([9, 9, 9, 9, 9, 9] : List Nat).drop (2 + 1)
    ∧ (parameterChanged ⟨[], [9, 9, 9, 9, 9, 9], [5], false, []⟩ 2 1).tmpArray = [] :=
  (C9_focus_gating ⟨[], [9, 9, 9, 9, 9, 9], [5], false, []⟩ 2 1).2.2.1
    (by decide) rfl (by decide)

/-- C10 (confirmed): `parameterChanged` terminates, and its recursion depth
is at most 1 — every fuel bound of at least 2 computes the same result as
fuel 2, because the recursion is entered only at offset `PatchName` = 16
and the recursive calls use offsets 17..27. -/
theorem C10_termination (fuel : Nat) (st : EditState) (offset length : Nat)
    (h : 2 ≤ fuel) :
    parameterChangedFuel fuel st offset length = parameterChanged st offset length := by
  obtain ⟨k, rfl⟩ : ∃ k, fuel = k + 2 := ⟨fuel - 2, by omega⟩
  unfold parameterChanged
  rw [pcFuel_succ, show (2 : Nat) = 1 + 1 from rfl, pcFuel_succ]
  exact pcStep_congr _ _ _ _ _ (fun s i hi => pcFuel_one_of_ne k s i 1 hi)

/-- C10, witness: fuel 5 and fuel 2 agree on a name write. -/
theorem C10_witness :
    parameterChangedFuel 5 ⟨[], [], [], false, []⟩ PatchName 12
      = parameterChanged ⟨[], [], [], false, []⟩ PatchName 12 :=
  C10_termination 5 ⟨[], [], [], false, []⟩ PatchName 12 (by decide)

end Magicstomp
